import Mathlib

/-!
Shallow embedding of the bridge-bidding-engine repository.

Namespace `BridgeFull` models `src/bridge_bidding_engine_full.py`,
namespace `Coach` models `src/bridge_coach_agent.py`, and namespace
`AppUI` models the `BridgeCoachAgent` class of `src/streamlit_app.py`.
Python exceptions (IndexError, KeyError, AttributeError, ValueError)
are modelled by `Option`/`Except` results: a `none`/`.error` value
means the Python code raises at that point.
-/

set_option maxRecDepth 4000

namespace BridgeFull

/-- A card as the Python two-character string `rank + suit`:
the first component is the rank character, the second the suit character. -/
def Card : Type := Char × Char

instance : DecidableEq Card := by
  unfold Card
  infer_instance

instance : Repr Card := inferInstanceAs (Repr (Char × Char))

/-- `RANKS = "23456789TJQKA"` as a list of characters. -/
def RANKS : List Char :=
  ['2', '3', '4', '5', '6', '7', '8', '9', 'T', 'J', 'Q', 'K', 'A']

/-- `HCP_MAP = dict(zip(RANKS, [0,0,0,0,0,0,0,0,0,1,2,3,4]))`.
Keys outside the table are sent to 0 (every engine lookup uses ranks
produced by the parser, which are always in the table). -/
def HCP_MAP (r : Char) : Nat :=
  if r = 'J' then 1
  else if r = 'Q' then 2
  else if r = 'K' then 3
  else if r = 'A' then 4
  else 0

/-- `hcp(cards)`: sum of `HCP_MAP[c[0]]` over the cards. -/
def hcp (cards : List Card) : Nat :=
  (cards.map (fun c => HCP_MAP c.1)).sum

/-- `suit_len(cards, suit)`: number of cards whose suit character matches. -/
def suit_len (cards : List Card) (suit : Char) : Nat :=
  (cards.filter (fun c => c.2 = suit)).length

/-- `shape(cards)`: suit lengths in the fixed order S, H, D, C. -/
def shape (cards : List Card) : Nat × Nat × Nat × Nat :=
  (suit_len cards 'S', suit_len cards 'H', suit_len cards 'D', suit_len cards 'C')

/-- `is_balanced(sh)`: the sorted shape is one of the three balanced profiles. -/
def is_balanced (sh : Nat × Nat × Nat × Nat) : Bool :=
  let l := List.insertionSort (fun a b => a ≤ b) [sh.1, sh.2.1, sh.2.2.1, sh.2.2.2]
  l = [3, 3, 3, 4] ∨ l = [2, 3, 4, 4] ∨ l = [2, 3, 3, 5]

/-- `count_aces(cards)`: number of cards whose rank character is `A`. -/
def count_aces (cards : List Card) : Nat :=
  (cards.filter (fun c => c.1 = 'A')).length

/-- The `Hand` dataclass: the `hcp` and `shape` fields are derived from
`cards` in `__post_init__`, so only the card list is stored here and the
derived fields are the functions `Hand.hcp` and `Hand.shape`. -/
structure Hand where
  cards : List Card
deriving DecidableEq, Repr

/-- Derived field `Hand.hcp`. -/
def Hand.hcp (h : Hand) : Nat := BridgeFull.hcp h.cards

/-- Derived field `Hand.shape`. -/
def Hand.shape (h : Hand) : Nat × Nat × Nat × Nat := BridgeFull.shape h.cards

/-- The `Suggestion` dataclass: a bid string and a justification string. -/
structure Suggestion where
  bid : String
  reason : String
deriving DecidableEq, Repr

/-- Python `str.strip().upper().replace("-", "")` applied to the raw
input, modelled on the character list. -/
def normalize (s : List Char) : List Char :=
  ((((s.dropWhile Char.isWhitespace).reverse.dropWhile Char.isWhitespace).reverse).map
    Char.toUpper).filter (fun c => c ≠ '-')

/-- Python `str.split(sep)` for a single-character separator: empty
pieces are kept and the empty string splits to `[""]`. -/
def pySplit (sep : Char) : List Char → List (List Char)
  | [] => [[]]
  | c :: rest =>
    let r := pySplit sep rest
    if c = sep then [] :: r
    else
      match r with
      | g :: gs => (c :: g) :: gs
      | [] => [[c]]

/-- One group of the dotted notation: each rank character must be in
`RANKS`, and each accepted rank becomes the card `rank + suit`. -/
def parse_ranks (suit : Char) : List Char → Except String (List Card)
  | [] => .ok []
  | r :: rs =>
    if r ∈ RANKS then
      match parse_ranks suit rs with
      | .ok out => .ok ((r, suit) :: out)
      | .error e => .error e
    else .error ("Bad rank " ++ String.mk [r])

/-- The loop `for ranks, suit in zip(parts, SUITS)` of the dotted branch. -/
def parse_groups : List (List Char × Char) → Except String (List Card)
  | [] => .ok []
  | (g, suit) :: rest =>
    match parse_ranks suit g with
    | .error e => .error e
    | .ok cs =>
      match parse_groups rest with
      | .error e => .error e
      | .ok csr => .ok (cs ++ csr)

/-- The token loop of the space-separated branch: each token must be two
characters, a valid rank followed by a valid suit. -/
def parse_toks : List (List Char) → Except String (List Card)
  | [] => .ok []
  | t :: ts =>
    if ht : t.length = 2 then
      let r := t.get ⟨0, by omega⟩
      let su := t.get ⟨1, by omega⟩
      if r ∈ RANKS ∧ su ∈ ['S', 'H', 'D', 'C'] then
        match parse_toks ts with
        | .ok out => .ok ((r, su) :: out)
        | .error e => .error e
      else .error ("Bad card " ++ String.mk t)
    else .error ("Card " ++ String.mk t ++ " must be 2 chars like AS, TD")

/-- `parse_hand_string(s)`: after normalization, either the dotted
four-group notation (when a dot is present and no space is) or the
space-separated 13-token notation.  `.error` models a raised
`ValueError`. -/
def parse_hand_string (s : String) : Except String (List Card) :=
  let ns := normalize s.toList
  if '.' ∈ ns ∧ ¬ (' ' ∈ ns) then
    let parts := pySplit '.' ns
    if parts.length ≠ 4 then
      .error "Use S.H.D.C groups like J643.AJ54.A7.T97"
    else
      parse_groups (parts.zip ['S', 'H', 'D', 'C'])
  else
    let toks := (pySplit ' ' (ns.map (fun c => if c = '\n' then ' ' else c))).filter
      (fun t => t ≠ [])
    if toks.length ≠ 13 then
      .error ("Expected 13 cards, got " ++ toString toks.length)
    else
      parse_toks toks

/-- Whether a parse result is a success (no `ValueError` raised). -/
def isOkE {α : Type} : Except String α → Bool
  | .ok _ => true
  | .error _ => false

/-- The per-turn ledger update of the interactive loop `run_loop`:
`auction.append(call)` followed by the consecutive-pass counter update.
The call is recorded unconditionally — no legality check exists. -/
def run_loop_step (auction : List String) (passes : Nat) (call : String) :
    List String × Nat :=
  (auction ++ [call], if call = "PASS" then passes + 1 else 0)

/-- `partner_range_guess(auction)`: a lookup keyed on the very last call
of the auction (the second `2NT` test from the source is kept although it
is unreachable after the first). -/
def partner_range_guess (auction : List String) : Nat × Nat :=
  match auction.getLast? with
  | none => (0, 0)
  | some last =>
    if last = "1NT" then (15, 17)
    else if last = "2NT" then (20, 21)
    else if last = "1S" ∨ last = "1H" ∨ last = "1D" ∨ last = "1C" then (12, 21)
    else if last = "2C" then (22, 40)
    else if last = "2NT" then (18, 19)
    else if last = "3NT" then (25, 27)
    else (0, 20)

/-- Fixed priority table used to sort opening suggestions; calls outside
the table get priority 8 (the `order.get(b, 8)` default). -/
def opening_order (b : String) : Nat :=
  if b = "2C" then 0
  else if b = "2NT" then 1
  else if b = "1NT" then 2
  else if b = "1S" ∨ b = "1H" then 3
  else if b = "1D" then 4
  else if b = "1C" then 5
  else if b = "3S" ∨ b = "3H" then 6
  else if b = "2S" ∨ b = "2H" then 7
  else if b = "Pass" then 9
  else 8

/-- The dict comprehension `{s.bid: s for s in out}` read back as a value
list: keys keep their first-insertion position, later suggestions with
the same bid overwrite the stored value. -/
def pyDictValues (l : List Suggestion) : List Suggestion :=
  l.foldl (fun acc s =>
    if acc.any (fun t => t.bid = s.bid) then
      acc.map (fun t => if t.bid = s.bid then s else t)
    else acc ++ [s]) []

/-- `opening_suggestions(hand)`. -/
def opening_suggestions (hand : Hand) : List Suggestion :=
  let H := hand.hcp
  let S := hand.shape.1
  let Ht := hand.shape.2.1
  let D := hand.shape.2.2.1
  let C := hand.shape.2.2.2
  if 22 ≤ H then [⟨"2C", "22+ HCP — strong, artificial, forcing opening."⟩]
  else
    let out :=
      (if is_balanced hand.shape then
        (if 20 ≤ H ∧ H ≤ 21 then [⟨"2NT", "20–21 HCP, balanced."⟩] else []) ++
        (if 15 ≤ H ∧ H ≤ 17 then [⟨"1NT", "15–17 HCP, balanced; no 5-card major."⟩] else [])
      else []) ++
      (if 6 ≤ H ∧ H ≤ 10 ∧ 6 ≤ Ht then [⟨"2H", "Weak two: 6+♥, 6–10 HCP."⟩] else []) ++
      (if 6 ≤ H ∧ H ≤ 10 ∧ 6 ≤ S then [⟨"2S", "Weak two: 6+♠, 6–10 HCP."⟩] else []) ++
      (if 5 ≤ H ∧ H ≤ 10 ∧ 7 ≤ Ht then [⟨"3H", "Preempt: 7+♥, 5–10 HCP."⟩] else []) ++
      (if 5 ≤ H ∧ H ≤ 10 ∧ 7 ≤ S then [⟨"3S", "Preempt: 7+♠, 5–10 HCP."⟩] else []) ++
      (if 12 ≤ H ∧ H ≤ 21 then
        (if 5 ≤ S ∨ 5 ≤ Ht then
          (if 5 ≤ S ∧ Ht ≤ S then [⟨"1S", s!"{H} HCP and 5+♠."⟩] else []) ++
          (if 5 ≤ Ht ∧ S < Ht then [⟨"1H", s!"{H} HCP and 5+♥."⟩] else [])
        else if C ≤ D then [⟨"1D", s!"{H} HCP, no 5-card major; longer/equal ♦."⟩]
        else [⟨"1C", s!"{H} HCP, no 5-card major; longer ♣."⟩])
      else [])
    let out := if H < 12 ∧ out = [] then [⟨"Pass", s!"{H} HCP — no suitable preempt."⟩] else out
    List.insertionSort (fun a b => opening_order a.bid ≤ opening_order b.bid) (pyDictValues out)

/-- One iteration of the suit-overcall loop (`for suit, ln in
zip(SUITS, (S,Ht,D,C))`): `rhs_first` is the first character of the
right-hand opening, `opener_suit` its last character. -/
def overcall_suit_chunk (rhs_first : Option Char) (opener_suit : Char) (H : Nat)
    (suit : Char) (ln : Nat) : List Suggestion :=
  if 5 ≤ ln then
    let level := if rhs_first = some '1' ∧ suit ≠ opener_suit then "1" else "2"
    (if 8 ≤ H ∧ H ≤ 16 then
      [⟨level.push suit, s!"{level}-level overcall: {ln}-card {suit}, {H} HCP."⟩] else []) ++
    (if 6 ≤ H ∧ H ≤ 10 ∧ 6 ≤ ln ∧ (level = "2" ∨ level = "3") then
      [⟨("JUMP " ++ level).push suit, s!"Weak jump overcall: {ln}-card {suit}, {H} HCP."⟩]
    else [])
  else []

/-- `overcall_suggestions(rhs_open, hand)`.  A `none` result models a
raised exception: `rhs_open[-1]` on the empty string (IndexError) or the
dictionary lookup `{"S":S,"H":Ht,"D":D,"C":C}[opener_suit]` on a suit
character outside the table (KeyError, e.g. the `T` of `3NT`). -/
def overcall_suggestions (rhs_open : String) (hand : Hand) : Option (List Suggestion) :=
  let H := hand.hcp
  let S := hand.shape.1
  let Ht := hand.shape.2.1
  let D := hand.shape.2.2.1
  let C := hand.shape.2.2.2
  if rhs_open = "1NT" ∨ rhs_open = "2NT" then
    if rhs_open = "1NT" ∧ 15 ≤ H then some [⟨"X", "Penalty double vs 1NT (≈15+ HCP)."⟩]
    else some [⟨"Pass", "No NT penalty double available by rule."⟩]
  else
    match rhs_open.toList.getLast? with
    | none => none
    | some opener_suit =>
      let first := rhs_open.toList.head?
      let base :=
        (if is_balanced hand.shape ∧ 19 ≤ H then
          [⟨"2NT", "19–21 balanced overcall with stopper(s)."⟩] else []) ++
        (if is_balanced hand.shape ∧ 15 ≤ H ∧ H ≤ 18 then
          [⟨"1NT", "15–18 balanced overcall with stopper(s)."⟩] else []) ++
        overcall_suit_chunk first opener_suit H 'S' S ++
        overcall_suit_chunk first opener_suit H 'H' Ht ++
        overcall_suit_chunk first opener_suit H 'D' D ++
        overcall_suit_chunk first opener_suit H 'C' C
      match (if opener_suit = 'S' then some S
        else if opener_suit = 'H' then some Ht
        else if opener_suit = 'D' then some D
        else if opener_suit = 'C' then some C
        else none) with
      | none => none
      | some ln_open =>
        let out := base ++
          (if 12 ≤ H ∧ ln_open ≤ 2 then
            [⟨"X", "Takeout double: 12+ HCP, short in opener’s suit; support for unbid."⟩]
          else [])
        some (if out = [] then [⟨"Pass", "No safe overcall/double by these rules."⟩] else out)

/-- One iteration of the new-suit loop of the major-opening response
branch (`for suit, ln2 in [("H",Ht),("S",S),("D",D),("C",C)]`). -/
def new_suit_chunk (trump : Char) (h : Nat) (suit : Char) (ln2 : Nat) : List Suggestion :=
  if suit ≠ trump ∧ 4 ≤ ln2 ∧ 10 ≤ h then
    [⟨String.mk ['2', suit], s!"New suit: 10+ HCP, 4+ {suit}."⟩]
  else []

/-- `responder_suggestions(opener_bid, hand, auction)` (the `auction`
argument is accepted but unused, as in the source). -/
def responder_suggestions (opener_bid : String) (hand : Hand) (_auction : List String) :
    List Suggestion :=
  let h := hand.hcp
  let S := hand.shape.1
  let Ht := hand.shape.2.1
  let D := hand.shape.2.2.1
  let C := hand.shape.2.2.2
  if opener_bid = "1NT" then
    (if 5 ≤ Ht then [⟨"2D", "Transfer to ♥ (5+ hearts)."⟩] else []) ++
    (if 5 ≤ S then [⟨"2H", "Transfer to ♠ (5+ spades)."⟩] else []) ++
    (if (4 ≤ S ∨ 4 ≤ Ht) ∧ 8 ≤ h then
      [⟨"2C", "Stayman — asks for 4-card major (8+ HCP)."⟩] else []) ++
    (if S < 5 ∧ Ht < 5 then
      let min_tot := h + 15
      let max_tot := h + 17
      (if h ≤ 7 then [⟨"Pass", "0–7 HCP, no 5-card major."⟩] else []) ++
      (if 8 ≤ h ∧ h ≤ 9 then
        [⟨"2NT", s!"Invite: 8–9 HCP (combined ≈{min_tot}–{max_tot})"⟩] else []) ++
      (if 10 ≤ h then
        [⟨"3NT", s!"Game: 10+ HCP opposite 1NT (combined ≈{min_tot}–{max_tot})"⟩] ++
        (if 16 ≤ h then
          [⟨"4NT", "Quantitative: invite 6NT with 16+ opposite 15–17."⟩] else []) ++
        (if 20 ≤ h then
          [⟨"6NT", s!"Small slam tendency (combined ≈{min_tot}–{max_tot})"⟩] else []) ++
        (if 21 ≤ h then
          [⟨"7NT", s!"Grand slam tendency (combined ≈{min_tot}–{max_tot})"⟩] else [])
      else [])
    else []) ++
    (if 13 ≤ h then [⟨"4C", "Gerber: ask for aces over NT (slam interest)."⟩] else [])
  else if opener_bid = "1S" ∨ opener_bid = "1H" then
    let trump := if opener_bid = "1S" then 'S' else 'H'
    let ln := if trump = 'S' then S else Ht
    let out :=
      (if 3 ≤ ln then
        (if 6 ≤ h ∧ h ≤ 9 then
          [⟨String.mk ['2', trump], s!"Single raise: {ln} trumps, 6–9 HCP."⟩] else []) ++
        (if 10 ≤ h ∧ h ≤ 12 then
          [⟨String.mk ['3', trump], s!"Limit raise: {ln}+ trumps, 10–12 HCP."⟩] else []) ++
        (if 13 ≤ h then
          [⟨String.mk ['4', trump], s!"Game raise: {ln}+ trumps, 13+ HCP (≈25+ combined)."⟩,
           ⟨"2NT", "Jacoby 2NT: GF raise with 4+ support, 13+ HCP (slam interest)."⟩]
        else [])
      else []) ++
      (if 6 ≤ h ∧ h ≤ 10 then [⟨"1NT", "6–10, no fit (semi-forcing)."⟩] else []) ++
      new_suit_chunk trump h 'H' Ht ++
      new_suit_chunk trump h 'S' S ++
      new_suit_chunk trump h 'D' D ++
      new_suit_chunk trump h 'C' C
    if out = [] then [⟨"Pass", "Too weak."⟩] else out
  else if opener_bid = "1D" ∨ opener_bid = "1C" then
    let out :=
      (if 4 ≤ S ∧ 6 ≤ h then [⟨"1S", "4+ spades, 6+ HCP."⟩] else []) ++
      (if 4 ≤ Ht ∧ 6 ≤ h then [⟨"1H", "4+ hearts, 6+ HCP."⟩] else []) ++
      (if S < 4 ∧ Ht < 4 ∧ 6 ≤ h ∧ h ≤ 10 then
        [⟨"1NT", "6–10 balanced, no 4-card major."⟩] else []) ++
      (if opener_bid = "1D" ∧ 4 ≤ D ∧ 6 ≤ h ∧ h ≤ 9 then
        [⟨"2D", "Raise ♦, 6–9."⟩] else []) ++
      (if opener_bid = "1C" ∧ 4 ≤ C ∧ 6 ≤ h ∧ h ≤ 9 then
        [⟨"2C", "Raise ♣, 6–9."⟩] else [])
    if out = [] then [⟨"Pass", "Too weak."⟩] else out
  else if opener_bid = "2NT" then
    let min_tot := h + 20
    let max_tot := h + 21
    if h ≤ 3 then [⟨"Pass", "Very weak opposite 20–21."⟩]
    else
      [⟨"3NT", s!"Game opposite 20–21 (combined ≈{min_tot}–{max_tot})"⟩] ++
      (if 5 ≤ h then [⟨"4C", "Gerber: ask for aces (slam interest)."⟩] else []) ++
      (if 11 ≤ h then
        [⟨"4NT", s!"Quantitative: invite 6NT (combined ≈{min_tot}–{max_tot})"⟩] else []) ++
      (if 13 ≤ h then
        [⟨"6NT", s!"Small slam tendency (combined ≈{min_tot}–{max_tot})"⟩] else []) ++
      (if 16 ≤ h then
        [⟨"7NT", s!"Grand slam tendency (combined ≈{min_tot}–{max_tot})"⟩] else [])
  else if opener_bid = "2C" then [⟨"2D", "Waiting (artificial), game forcing."⟩]
  else [⟨"Pass", "No rule matched."⟩]

/-- `auto_reply_rkcb(our_cards)`: `{0:"5C",1:"5D",2:"5H",3:"5S",4:"5C"}`
with `.get` default `"5C"`. -/
def auto_reply_rkcb (our_cards : List Card) : String :=
  match count_aces our_cards with
  | 0 => "5C"
  | 1 => "5D"
  | 2 => "5H"
  | 3 => "5S"
  | 4 => "5C"
  | _ => "5C"

/-- `auto_reply_gerber(our_cards)`: `{0:"4D",1:"4H",2:"4S",3:"4NT",4:"4D"}`
with `.get` default `"4D"`. -/
def auto_reply_gerber (our_cards : List Card) : String :=
  match count_aces our_cards with
  | 0 => "4D"
  | 1 => "4H"
  | 2 => "4S"
  | 3 => "4NT"
  | 4 => "4D"
  | _ => "4D"

/-- `nt_context_exists(auction)`. -/
def nt_context_exists (auction : List String) : Bool :=
  auction.any (fun b => b = "1NT" ∨ b = "2NT" ∨ b = "3NT")

/-- `major_fit_agreed(auction)`: hearts first, then spades; a single
2-, 3- or 4-level call of the major suffices. -/
def major_fit_agreed (auction : List String) : Option Char :=
  let bids := auction.filter (fun b => ¬ (b = "Pass" ∨ b = "X" ∨ b = "XX"))
  if bids.any (fun b => b = "2H" ∨ b = "3H" ∨ b = "4H") then some 'H'
  else if bids.any (fun b => b = "2S" ∨ b = "3S" ∨ b = "4S") then some 'S'
  else none

/-- Spec-side reading of `trumpSuitAgreed`: the first major suit (in the
engine order hearts, spades) that has been bid at two distinct levels
within the auction.  A call "bids suit M at level l" when its last
character is M and its first character is l. -/
def spec_two_level_major (auction : List String) : Option Char :=
  let levelsOf := fun (M : Char) =>
    (((auction.filter (fun b => b.toList.getLast? = some M)).filterMap
      (fun b => b.toList.head?)).dedup)
  if 2 ≤ (levelsOf 'H').length then some 'H'
  else if 2 ≤ (levelsOf 'S').length then some 'S'
  else none

/-- The slam-layer appends of the partner-acted-last branch of
`advise_your_bid`. -/
def slam_layer (auction : List String) (fit : Option Char) (min_tot max_tot : Nat) :
    List Suggestion :=
  (match fit with
  | some M =>
    if 33 ≤ min_tot then
      let sym := if M = 'H' then "♥" else "♠"
      [⟨"4NT", s!"RKCB (slam try in {sym}); combined ≈{min_tot}–{max_tot}"⟩]
    else []
  | none => []) ++
  (if nt_context_exists auction ∧ 32 ≤ min_tot then
    [⟨"4NT", "Quantitative: invite 6NT (combined high totals)."⟩] else []) ++
  (if nt_context_exists auction ∧ 33 ≤ min_tot then
    [⟨"6NT", s!"Small slam tendency (combined ≈{min_tot}–{max_tot})"⟩] else []) ++
  (if nt_context_exists auction ∧ 37 ≤ min_tot then
    [⟨"7NT", s!"Grand slam tendency (combined ≈{min_tot}–{max_tot})"⟩] else [])

/-- Justification text of the RKCB auto-reply. -/
def rkcb_reason (reply : String) : String :=
  s!"Auto-reply to RKCB (4NT): showing aces ({reply})."

/-- Justification text of the Gerber auto-reply. -/
def gerber_reason (reply : String) : String :=
  s!"Auto-reply to Gerber (4♣ over NT): showing aces ({reply})."

/-- `advise_your_bid(your_hand, auction)`.  A `none` result models an
exception propagating out of `overcall_suggestions`. -/
def advise_your_bid (your_hand : Hand) (auction : List String) :
    Option (List Suggestion) :=
  if auction.getLast? = some "X" then
    if 10 ≤ your_hand.hcp then
      some [⟨"XX", "Redouble with 10+ HCP after partner\x27s double."⟩]
    else some [⟨"Bid best suit", "Runout after partner\x27s double (not fully modeled)."⟩]
  else if auction.getLast? = some "4NT" ∧ (major_fit_agreed auction).isSome then
    let reply := auto_reply_rkcb your_hand.cards
    some [⟨reply, rkcb_reason reply⟩]
  else if auction.getLast? = some "4C" ∧ nt_context_exists auction then
    let reply := auto_reply_gerber your_hand.cards
    some [⟨reply, gerber_reason reply⟩]
  else
    let real_calls := auction.filter (fun b => ¬ (b = "Pass" ∨ b = "X" ∨ b = "XX"))
    match real_calls.getLast? with
    | some last =>
      if auction.length % 2 = 1 then overcall_suggestions last your_hand
      else
        let sugs := responder_suggestions last your_hand auction
        let pr := partner_range_guess auction
        let min_tot := pr.1 + your_hand.hcp
        let max_tot := pr.2 + your_hand.hcp
        let fit := major_fit_agreed auction
        some (sugs ++ slam_layer auction fit min_tot max_tot)
    | none => some (opening_suggestions your_hand)

end BridgeFull

namespace Coach

/-- The seat rotation `['N', 'E', 'S', 'W']`. -/
def bidders : List String := ["N", "E", "S", "W"]

/-- `SUIT_MAP = {'S':0,'H':1,'D':2,'C':3,'N':4}` (only ever looked up at
one of those five characters by the agent). -/
def SUIT_MAP (c : Char) : Nat :=
  if c = 'S' then 0
  else if c = 'H' then 1
  else if c = 'D' then 2
  else if c = 'C' then 3
  else 4

/-- The mutable fields of `BridgeCoachAgent`.  `consecutive_passes` is
`Option Nat`: `none` means the attribute has never been assigned (the
constructor of this variant does not initialize it), and reading it then
raises `AttributeError`. -/
structure CoachAgent where
  dealer : String
  vulnerability : String
  bidderIndex : Nat
  current_sequence : List String
  user_pos : String
  trump_suit : Option String
  consecutive_passes : Option Nat
deriving DecidableEq, Repr

/-- `BridgeCoachAgent.__init__(dealer, vulnerability)`: the user seat is
fixed to South and `consecutive_passes` is left unset. -/
def mkAgent (dealer vulnerability : String) : CoachAgent :=
  { dealer := dealer
    vulnerability := vulnerability
    bidderIndex := bidders.indexOf dealer
    current_sequence := []
    user_pos := "S"
    trump_suit := none
    consecutive_passes := none }

/-- `_get_partner_pos(pos)`. -/
def get_partner_pos (pos : String) : String :=
  if pos = "N" then "S" else if pos = "S" then "N" else if pos = "E" then "W" else "E"

/-- `_get_last_bid_info()`: the last non-`P` call, the seat that made it
(first occurrence of that call string, counted from the dealer), and
whether that seat is the user or the user\x27s partner.  `none` models the
`(None, None, None)` return. -/
def get_last_bid_info (a : CoachAgent) : Option (String × String × Bool) :=
  let meaningful := a.current_sequence.filter (fun b => b ≠ "P")
  match meaningful.getLast? with
  | none => none
  | some last_bid =>
    let idx := a.current_sequence.indexOf last_bid
    let lbi := (bidders.indexOf a.dealer + idx) % 4
    let last_bidder := bidders.getD lbi ""
    some (last_bid, last_bidder,
      last_bidder = a.user_pos ∨ last_bidder = get_partner_pos a.user_pos)

/-- `_update_sequence(bid)`: `none` models the `AttributeError` raised by
`self.consecutive_passes += 1` when the counter was never created. -/
def update_sequence (a : CoachAgent) (bid : String) : Option (CoachAgent × Bool) :=
  let seq := a.current_sequence ++ [bid]
  if bid ≠ "P" then
    let trump :=
      if bid = "1S" ∨ bid = "1H" ∨ bid = "2S" ∨ bid = "2H" ∨
          bid = "3S" ∨ bid = "3H" ∨ bid = "4S" ∨ bid = "4H" then
        some (String.mk [bid.toList.getLastD ' '])
      else if bid = "1C" ∨ bid = "1D" ∨ bid = "2C" ∨ bid = "2D" ∨
          bid = "3C" ∨ bid = "3D" ∨ bid = "4C" ∨ bid = "4D" then
        some (String.mk [bid.toList.getLastD ' '])
      else a.trump_suit
    let a2 :=
      { a with
        current_sequence := seq
        consecutive_passes := some 0
        trump_suit := trump
        bidderIndex := a.bidderIndex + 1 }
    some (a2, decide (4 ≤ seq.length ∧ 3 ≤ (0 : Nat)))
  else
    match a.consecutive_passes with
    | none => none
    | some n =>
      let a2 :=
        { a with
          current_sequence := seq
          consecutive_passes := some (n + 1)
          bidderIndex := a.bidderIndex + 1 }
      some (a2, decide (4 ≤ seq.length ∧ 3 ≤ n + 1))

/-- The `user_hand` dictionary passed to `suggest_bid`. -/
structure UserHand where
  hcp : Nat
  dist : List Nat
deriving DecidableEq, Repr

/-- The 1NT-response block of PHASE 2 (returns `none` when control falls
through the block without an explicit `return`). -/
def phase2_1NT (hcp : Nat) (dist : List Nat) : Option (String × String) :=
  if hcp < 8 then
    some ("Pass", "Pass. You lack the 8 HCP minimum for a forcing response to 1NT.")
  else if 4 ≤ dist.getD 0 0 ∨ 4 ≤ dist.getD 1 0 then
    some ("2C", "Bid 2 Clubs (Stayman) to ask for partner\x27s 4-card Majors.")
  else if 5 ≤ dist.getD 1 0 then
    some ("2D", "Bid 2 Diamonds (Jacoby Transfer) to show 5+ Hearts.")
  else if 5 ≤ dist.getD 0 0 then
    some ("2H", "Bid 2 Hearts (Jacoby Transfer) to show 5+ Spades.")
  else if 13 ≤ hcp then
    some ("3NT", "Bid 3NT for game. You have 13+ HCP and a balanced hand without a Major fit.")
  else if 10 ≤ hcp ∧ hcp ≤ 12 then
    some ("2NT", "Bid 2NT (Invitational). You have 10-12 HCP for a possible 3NT.")
  else none

/-- The Blackwood block of PHASE 2 (`key_cards = hcp // 7`). -/
def phase2_rkcb (hcp : Nat) : Option (String × String) :=
  let key_cards := hcp / 7
  if key_cards = 0 ∨ key_cards = 3 then
    some ("5C", "Responding to RKCB: 0 or 3 Key Cards.")
  else if key_cards = 1 ∨ key_cards = 4 then
    some ("5D", "Responding to RKCB: 1 or 4 Key Cards.")
  else if key_cards = 2 then
    some ("5H", "Responding to RKCB: 2 Key Cards (simplified).")
  else none

/-- PHASE 3: raises and new suits after a partner one-of-a-suit opening
(`none` when no `return` statement of the phase fires). -/
def phase3 (last_bid : String) (hcp : Nat) (dist : List Nat) (tp : Nat) :
    Option (String × String) :=
  let partner_suit := last_bid.toList.getLastD ' '
  let p_idx := SUIT_MAP partner_suit
  let fitResult :=
    if 3 ≤ dist.getD p_idx 0 then
      let combined_tp := 12 + tp
      if 25 ≤ combined_tp then
        some (String.mk ['4', partner_suit],
          s!"Bid game: 4{partner_suit}. You have a fit and 25+ combined TP.")
      else if 22 ≤ combined_tp then
        some (String.mk ['3', partner_suit],
          s!"Bid 3{partner_suit} (Invitational). You have a fit and 22-24 combined TP.")
      else if 6 ≤ hcp then
        some (String.mk ['2', partner_suit],
          s!"Simple Non-forcing Raise to 2{partner_suit} (6-9 TP).")
      else none
    else none
  match fitResult with
  | some r => some r
  | none =>
    if 6 ≤ hcp then
      if last_bid = "1C" ∨ last_bid = "1D" then
        if 4 ≤ dist.getD 0 0 then some ("1S", "Bid your 4+ card Major, 1 Spades (forcing).")
        else if 4 ≤ dist.getD 1 0 then some ("1H", "Bid your 4+ card Major, 1 Hearts (forcing).")
        else some ("1NT", "No fit, 6-9 HCP, balanced. Non-forcing 1NT.")
      else some ("1NT", "No fit, 6-9 HCP, balanced. Non-forcing 1NT.")
    else none

/-- PHASE 4: competition over an opponent call.  `coin` is the outcome of
`random.choice([True, False])`, made an explicit argument here so the
dependence of the result on the random draw is visible. -/
def phase4 (coin : Bool) (hcp : Nat) (dist : List Nat) : String × String :=
  if 12 ≤ hcp ∧ coin then
    ("X", "Bid Takeout Double. You have 12+ HCP, shortage in opponent\x27s suit implied.")
  else
    let pairs := [(dist.getD 0 0, 'S'), (dist.getD 1 0, 'H'),
      (dist.getD 2 0, 'D'), (dist.getD 3 0, 'C')]
    let suits := List.insertionSort (fun a b => b.1 < a.1 ∨ (a.1 = b.1 ∧ b.2 ≤ a.2)) pairs
    match suits.head? with
    | some top =>
      if 5 ≤ top.1 ∧ 8 ≤ hcp then
        let bs := top.2
        (String.mk ['1', bs], s!"Overcall in your best 5+ card suit, 1{bs} (8+ TP).")
      else ("Pass", "Pass. Hand too weak or bid too high to compete safely.")
    | none => ("Pass", "Pass. Hand too weak or bid too high to compete safely.")

/-- `suggest_bid(user_hand, vulnerability)`.  `coin` stands for the
`random.choice([True, False])` draw of PHASE 4. -/
def suggest_bid (coin : Bool) (a : CoachAgent) (uh : UserHand) : String × String :=
  let hcp := uh.hcp
  let dist := uh.dist
  let tp := hcp + (dist.map (fun d => d - 4)).sum
  match get_last_bid_info a with
  | none =>
    if 15 ≤ hcp ∧ hcp ≤ 17 ∧ dist.foldl max 0 ≤ 5 then
      ("1NT", "Open 1NT. You have a balanced hand with 15-17 HCP.")
    else if 12 ≤ hcp then
      if 5 ≤ dist.getD 0 0 then ("1S", "Open 1 Spades (5+ cards, 12+ HCP).")
      else if 5 ≤ dist.getD 1 0 then ("1H", "Open 1 Hearts (5+ cards, 12+ HCP).")
      else if 4 ≤ dist.getD 2 0 then ("1D", "Open 1 Diamond (4+ cards, 12+ HCP).")
      else if 3 ≤ dist.getD 3 0 then ("1C", "Open 1 Club (3+ cards, 12+ HCP).")
      else ("Pass", "You have less than 12 HCP, so the correct opening call is Pass.")
    else ("Pass", "You have less than 12 HCP, so the correct opening call is Pass.")
  | some (last_bid, last_bidder, is_partner_last) =>
    let p2 :=
      if is_partner_last then
        match (if last_bid = "1NT" then phase2_1NT hcp dist else none) with
        | some r => some r
        | none =>
          if last_bid = "4NT" ∧ a.trump_suit.isSome then phase2_rkcb hcp else none
      else none
    match p2 with
    | some r => r
    | none =>
      match (if is_partner_last ∧ (last_bid = "1C" ∨ last_bid = "1D" ∨
          last_bid = "1H" ∨ last_bid = "1S") then phase3 last_bid hcp dist tp
        else none) with
      | some r => r
      | none =>
        if (last_bidder = "E" ∨ last_bidder = "W") ∧ last_bid ≠ "P" then
          phase4 coin hcp dist
        else ("Pass", "Pass. No clear action is suggested by the SAYC system at this point.")

end Coach

namespace AppUI

/-- The mutable fields of the `streamlit_app.py` variant of
`BridgeCoachAgent`; this constructor initializes `consecutive_passes`. -/
structure SAgent where
  dealer : String
  bidderIndex : Nat
  current_sequence : List String
  consecutive_passes : Nat
  trump_suit : Option Char
deriving DecidableEq, Repr

/-- `__init__`: empty sequence, zero pass counter. -/
def mkSAgent (dealer : String) : SAgent :=
  { dealer := dealer
    bidderIndex := Coach.bidders.indexOf dealer
    current_sequence := []
    consecutive_passes := 0
    trump_suit := none }

/-- The trump-establishment test of `_update_sequence`:
`if len(self.current_sequence) > 1 and self.current_sequence[-2][-1] == suit`
evaluated after the append, so `[-2]` is the previously recorded call.
`none` models the IndexError of `[-1]` on an empty previous call. -/
def trump_check (st : SAgent) (bid : String) (suit : Char) : Option (Option Char) :=
  if 1 < (st.current_sequence ++ [bid]).length then
    match st.current_sequence.getLast? with
    | some prev =>
      match prev.toList.getLast? with
      | none => none
      | some pc => some (if pc = suit then some suit else st.trump_suit)
    | none => some st.trump_suit
  else some st.trump_suit

/-- `_update_sequence(bid)` of the streamlit variant.  The returned
`Bool` is the termination flag.  `none` models the IndexError raised by
`self.current_sequence[-2][-1]` when the previous recorded call is the
empty string and the new bid is a suit bid of levels 1–3. -/
def update_sequence (st : SAgent) (bid : String) : Option (SAgent × Bool) :=
  let seq := st.current_sequence ++ [bid]
  if bid ≠ "P" then
    let trumpStep :=
      if bid = "1C" ∨ bid = "1D" ∨ bid = "1H" ∨ bid = "1S" ∨
          bid = "2C" ∨ bid = "2D" ∨ bid = "2H" ∨ bid = "2S" ∨
          bid = "3C" ∨ bid = "3D" ∨ bid = "3H" ∨ bid = "3S" then
        match bid.toList.getLast? with
        | none => some st.trump_suit
        | some suit => trump_check st bid suit
      else some st.trump_suit
    trumpStep.map (fun trump =>
      ({ st with
          current_sequence := seq
          consecutive_passes := 0
          trump_suit := trump
          bidderIndex := st.bidderIndex + 1 },
        decide (4 ≤ seq.length ∧ 3 ≤ (0 : Nat))))
  else
    let st2 :=
      { st with
        current_sequence := seq
        consecutive_passes := st.consecutive_passes + 1
        bidderIndex := st.bidderIndex + 1 }
    some (st2, decide (4 ≤ seq.length ∧ 3 ≤ st.consecutive_passes + 1))

/-- The auction-terminated test `len(seq) >= 4 and consecutive_passes >= 3`
as a predicate on the agent state. -/
def isFinished (st : SAgent) : Bool :=
  decide (4 ≤ st.current_sequence.length ∧ 3 ≤ st.consecutive_passes)

/-- Recording one call: threading the possible exception. -/
def stepState (os : Option SAgent) (b : String) : Option SAgent :=
  os.bind (fun st => (update_sequence st b).map Prod.fst)

/-- Recording a whole list of calls into a fresh auction (dealer South). -/
def runAuction (calls : List String) : Option SAgent :=
  calls.foldl stepState (some (mkSAgent "S"))

/-- Length of the maximal all-`P` suffix of the recorded calls. -/
def trailingPassCount (l : List String) : Nat :=
  (l.reverse.takeWhile (fun b => b = "P")).length

/-- Spec-side reading of the termination condition: the last three
recorded calls are all Pass. -/
def lastThreeArePass (l : List String) : Bool :=
  (l.reverse.take 3).all (fun b => b = "P")

end AppUI

/-- A 13-card hand with five spades, five hearts and 17 HCP. -/
def handMajors : BridgeFull.Hand :=
  ⟨[('A', 'S'), ('K', 'S'), ('Q', 'S'), ('J', 'S'), ('2', 'S'),
    ('A', 'H'), ('K', 'H'), ('5', 'H'), ('4', 'H'), ('3', 'H'),
    ('3', 'D'), ('2', 'D'), ('2', 'C')]⟩

/-- A 13-card hand with five hearts, two aces and 10 HCP. -/
def handTen : BridgeFull.Hand :=
  ⟨[('J', 'S'), ('6', 'S'), ('4', 'S'), ('3', 'S'),
    ('A', 'H'), ('J', 'H'), ('5', 'H'), ('4', 'H'), ('2', 'H'),
    ('A', 'D'), ('7', 'D'), ('T', 'C'), ('9', 'C')]⟩

/-- A card list holding all four aces. -/
def fourAces : List BridgeFull.Card :=
  [('A', 'S'), ('A', 'H'), ('A', 'D'), ('A', 'C')]

/-- Streamlit-agent state in which the single call `2H` is recorded. -/
def stAfter2H : AppUI.SAgent := ⟨"S", 2, ["2H"], 0, none⟩

/-- Coach-agent state after East, the dealer, opened `1H`. -/
def agentAfterE1H : Coach.CoachAgent :=
  { dealer := "E"
    vulnerability := "None"
    bidderIndex := 2
    current_sequence := ["1H"]
    user_pos := "S"
    trump_suit := none
    consecutive_passes := some 0 }

/-- A user-hand dictionary with 12 HCP and 5-3-3-2 distribution. -/
def uhTwelve : Coach.UserHand := ⟨12, [5, 3, 3, 2]⟩

/-- The suggestion list `advise_your_bid` produces for `handMajors` on
the ledger `["Pass", "1NT"]`. -/
def sugsMajors : List BridgeFull.Suggestion :=
  [⟨"2D", "Transfer to ♥ (5+ hearts)."⟩,
   ⟨"2H", "Transfer to ♠ (5+ spades)."⟩,
   ⟨"2C", "Stayman — asks for 4-card major (8+ HCP)."⟩,
   ⟨"4C", "Gerber: ask for aces over NT (slam interest)."⟩,
   ⟨"4NT", "Quantitative: invite 6NT (combined high totals)."⟩]

lemma string_eq_empty_of_toList_getLast?_none (s : String)
    (h : s.toList.getLast? = none) : s = "" := by
  cases s with
  | mk data =>
    cases data with
    | nil => rfl
    | cons c cs => simp [String.toList] at h

lemma trump_check_isSome (st : AppUI.SAgent) (b : String) (suit : Char)
    (hne : ∀ c ∈ st.current_sequence, c ≠ "") :
    (AppUI.trump_check st b suit).isSome = true := by
  unfold AppUI.trump_check
  split
  · cases hprev : st.current_sequence.getLast? with
    | none => simp
    | some prev =>
      have hmem : prev ∈ st.current_sequence := by
        have hx : prev ∈ st.current_sequence.getLast? := by rw [hprev]; rfl
        obtain ⟨hn, he⟩ := List.mem_getLast?_eq_getLast hx
        rw [he]
        exact List.getLast_mem hn
      cases hpc : prev.toList.getLast? with
      | none =>
        exact absurd (string_eq_empty_of_toList_getLast?_none prev hpc) (hne prev hmem)
      | some pc =>
        simp only [String.toList] at hpc
        simp [hprev, hpc]
  · simp

lemma update_sequence_some (st : AppUI.SAgent) (b : String) (r : AppUI.SAgent × Bool)
    (h : AppUI.update_sequence st b = some r) :
    r.1.current_sequence = st.current_sequence ++ [b] ∧
      r.1.consecutive_passes = (if b = "P" then st.consecutive_passes + 1 else 0) := by
  unfold AppUI.update_sequence at h
  by_cases hb : b = "P"
  · subst hb
    simp only [ne_eq, not_true_eq_false, if_false] at h
    cases h
    simp
  · rw [if_pos hb, Option.map_eq_some'] at h
    obtain ⟨t, _, hf⟩ := h
    cases hf
    simp [hb]

lemma runAuction_concat (l : List String) (b : String) :
    AppUI.runAuction (l ++ [b]) =
      (AppUI.runAuction l).bind (fun st => (AppUI.update_sequence st b).map Prod.fst) := by
  unfold AppUI.runAuction
  rw [List.foldl_append]
  rfl

lemma trailingPassCount_concat (l : List String) (b : String) :
    AppUI.trailingPassCount (l ++ [b]) =
      if b = "P" then AppUI.trailingPassCount l + 1 else 0 := by
  unfold AppUI.trailingPassCount
  by_cases hb : b = "P" <;>
    simp [hb, List.takeWhile_cons]

lemma runAuction_inv (l : List String) :
    ∀ st : AppUI.SAgent, AppUI.runAuction l = some st →
      st.current_sequence = l ∧ st.consecutive_passes = AppUI.trailingPassCount l := by
  induction l using List.reverseRecOn with
  | nil =>
    intro st h
    unfold AppUI.runAuction at h
    simp only [List.foldl_nil, Option.some.injEq] at h
    subst h
    simp [AppUI.mkSAgent, AppUI.trailingPassCount]
  | append_singleton l b ih =>
    intro st h
    rw [runAuction_concat] at h
    cases hrl : AppUI.runAuction l with
    | none => rw [hrl] at h; simp at h
    | some st0 =>
      rw [hrl] at h
      simp only [Option.some_bind] at h
      cases hu : AppUI.update_sequence st0 b with
      | none => rw [hu] at h; simp at h
      | some r =>
        rw [hu] at h
        simp only [Option.map_some', Option.some.injEq] at h
        obtain ⟨hseq, hpass⟩ := update_sequence_some st0 b r hu
        obtain ⟨ih1, ih2⟩ := ih st0 hrl
        constructor
        · rw [← h, hseq, ih1]
        · rw [← h, hpass, ih2, trailingPassCount_concat]

lemma le_length_takeWhile_iff (p : String → Bool) (r : List String) :
    ∀ n : Nat, n ≤ (r.takeWhile p).length ↔ n ≤ r.length ∧ (r.take n).all p = true := by
  induction r with
  | nil => intro n; simp
  | cons a r ih =>
    intro n
    cases n with
    | zero => simp
    | succ m =>
      by_cases hp : p a = true
      · simp only [List.takeWhile_cons, hp, if_true, List.length_cons, List.take_succ_cons,
          List.all_cons, Nat.succ_le_succ_iff, Bool.and_eq_true, ih m]
        tauto
      · simp [List.takeWhile_cons, hp]

/-- C1 (amended): the ledger append operations perform no legality
validation.  The `run_loop` append records every call unconditionally;
the streamlit `_update_sequence` appends every call whenever it returns
at all, and it does return (raising nothing) for every state whose
recorded calls are nonempty strings — legal or illegal alike.  No
`IllegalCallError` exists anywhere in the code. -/
theorem c1_append_never_validates :
    (∀ (auction : List String) (passes : Nat) (call : String),
      (BridgeFull.run_loop_step auction passes call).1 = auction ++ [call]) ∧
    (∀ (st : AppUI.SAgent) (b : String) (r : AppUI.SAgent × Bool),
      AppUI.update_sequence st b = some r →
        r.1.current_sequence = st.current_sequence ++ [b]) ∧
    (∀ (st : AppUI.SAgent) (b : String),
      (∀ c ∈ st.current_sequence, c ≠ "") →
        (AppUI.update_sequence st b).isSome = true) := by
  refine ⟨fun _ _ _ => rfl, fun st b r h => (update_sequence_some st b r h).1, ?_⟩
  intro st b hne
  unfold AppUI.update_sequence
  by_cases hb : b = "P"
  · subst hb; simp
  · rw [if_pos hb]
    simp only [Option.isSome_map']
    split
    · cases hl : b.toList.getLast? with
      | none => simp
      | some suit => simpa [hl] using trump_check_isSome st b suit hne
    · simp

/-- C1 (counterexample to the claim as stated): appending the
non-outranking contract call `1C` after a recorded `2H` neither fails
nor leaves the ledger unchanged — the call is appended and no error is
reported. -/
theorem c1_counterexample :
    (AppUI.update_sequence stAfter2H "1C").map (fun r => r.1.current_sequence) =
      some ["2H", "1C"] ∧ ["2H", "1C"] ≠ ["2H"] := by
  constructor
  · rfl
  · decide

/-- C1 witness: the totality part of the amended claim applied to the
concrete illegal append of `1C` over `["2H"]`. -/
theorem c1_witness : (AppUI.update_sequence stAfter2H "1C").isSome = true :=
  c1_append_never_validates.2.2 stAfter2H "1C" (by decide)

/-- C2: in the coach-agent variant, `suggest_bid` is not a function of
the hand and the ledger alone: with East having opened `1H` and a
12-HCP 5-3-3-2 hand, the takeout-double coin flip decides between the
suggestions `X` and `1S`, so two invocations on identical inputs can
return different results. -/
theorem c2_suggest_bid_depends_on_coin :
    (Coach.suggest_bid true agentAfterE1H uhTwelve).1 = "X" ∧
    (Coach.suggest_bid false agentAfterE1H uhTwelve).1 = "1S" ∧
    Coach.suggest_bid true agentAfterE1H uhTwelve ≠
      Coach.suggest_bid false agentAfterE1H uhTwelve := by
  refine ⟨rfl, rfl, ?_⟩
  decide

/-- C3: for every list of recorded calls that the streamlit agent
accepts, the auction is finished exactly when at least 4 calls are
recorded and the last 3 recorded calls are all Pass (in particular an
all-pass auction of exactly 4 Pass calls is finished). -/
theorem c3_isFinished_iff_last_three_pass (calls : List String) (st : AppUI.SAgent)
    (h : AppUI.runAuction calls = some st) :
    AppUI.isFinished st = true ↔
      (4 ≤ calls.length ∧ AppUI.lastThreeArePass calls = true) := by
  obtain ⟨hseq, hpass⟩ := runAuction_inv calls st h
  unfold AppUI.isFinished
  rw [hseq, hpass]
  unfold AppUI.trailingPassCount AppUI.lastThreeArePass
  rw [decide_eq_true_eq, le_length_takeWhile_iff]
  constructor
  · rintro ⟨h4, _, hall⟩
    exact ⟨h4, hall⟩
  · rintro ⟨h4, hall⟩
    refine ⟨h4, ?_, hall⟩
    simp only [List.length_reverse]
    omega

/-- C3 witness: recording exactly four Pass calls into a fresh auction
succeeds and the resulting state is finished. -/
theorem c3_witness :
    AppUI.runAuction ["P", "P", "P", "P"] = some ⟨"S", 6, ["P", "P", "P", "P"], 4, none⟩ ∧
    AppUI.isFinished ⟨"S", 6, ["P", "P", "P", "P"], 4, none⟩ = true :=
  ⟨rfl, (c3_isFinished_iff_last_three_pass ["P", "P", "P", "P"] _ rfl).mpr (by decide)⟩

/-- C10: on a fresh coach agent (which never initializes the
consecutive-pass counter), recording `P` as the very first call raises
`AttributeError` (modelled as `none`), while recording any other call
first succeeds. -/
theorem c10_first_pass_raises :
    Coach.update_sequence (Coach.mkAgent "S" "None") "P" = none ∧
    ∀ b : String, b ≠ "P" →
      (Coach.update_sequence (Coach.mkAgent "S" "None") b).isSome = true := by
  refine ⟨rfl, ?_⟩
  intro b hb
  unfold Coach.update_sequence
  rw [if_pos hb]
  simp

/-- C10 witness: recording `1S` as the first call succeeds. -/
theorem c10_witness : (Coach.update_sequence (Coach.mkAgent "S" "None") "1S").isSome = true :=
  c10_first_pass_raises.2 "1S" (by decide)

lemma advise_rkcb_branch (hand : BridgeFull.Hand) (auction : List String)
    (h1 : auction.getLast? = some "4NT")
    (h2 : (BridgeFull.major_fit_agreed auction).isSome = true) :
    BridgeFull.advise_your_bid hand auction =
      some [⟨BridgeFull.auto_reply_rkcb hand.cards,
        BridgeFull.rkcb_reason (BridgeFull.auto_reply_rkcb hand.cards)⟩] := by
  unfold BridgeFull.advise_your_bid
  rw [h1, if_neg (by simp), if_pos ⟨rfl, h2⟩]

lemma advise_gerber_branch (hand : BridgeFull.Hand) (auction : List String)
    (h1 : auction.getLast? = some "4C")
    (h2 : BridgeFull.nt_context_exists auction = true) :
    BridgeFull.advise_your_bid hand auction =
      some [⟨BridgeFull.auto_reply_gerber hand.cards,
        BridgeFull.gerber_reason (BridgeFull.auto_reply_gerber hand.cards)⟩] := by
  unfold BridgeFull.advise_your_bid
  rw [h1, if_neg (by simp), if_neg (by simp), if_pos ⟨rfl, h2⟩]

lemma advise_pass1nt (hand : BridgeFull.Hand) :
    BridgeFull.advise_your_bid hand ["Pass", "1NT"] =
      some (BridgeFull.responder_suggestions "1NT" hand ["Pass", "1NT"] ++
        BridgeFull.slam_layer ["Pass", "1NT"] none (15 + hand.hcp) (17 + hand.hcp)) :=
  rfl

/-- C4 (amended): on the single-call ledger `["1NT"]` the engine treats
the call as the right-hand opponent\x27s (odd call count) and suggests no
transfer; the transfers appear when the partner\x27s 1NT is the last real
call of an even-length ledger such as `["Pass", "1NT"]`, where a hand
with 5+ hearts receives the 2D transfer and one with 5+ spades the 2H
transfer among its suggestions. -/
theorem c4_transfer_on_even_ledger (hand : BridgeFull.Hand)
    (sugs : List BridgeFull.Suggestion)
    (hs : BridgeFull.advise_your_bid hand ["Pass", "1NT"] = some sugs)
    (_hp : 8 ≤ hand.hcp) :
    (5 ≤ BridgeFull.suit_len hand.cards 'H' →
      sugs.any (fun s => s.bid = "2D") = true) ∧
    (5 ≤ BridgeFull.suit_len hand.cards 'S' →
      sugs.any (fun s => s.bid = "2H") = true) := by
  rw [advise_pass1nt] at hs
  have hsugs := (Option.some.inj hs).symm
  subst hsugs
  constructor
  · intro hH
    simp only [List.any_append, Bool.or_eq_true]
    left
    simp [BridgeFull.responder_suggestions, List.any_append,
      show 5 ≤ hand.shape.2.1 from hH]
  · intro hS
    simp only [List.any_append, Bool.or_eq_true]
    left
    simp [BridgeFull.responder_suggestions, List.any_append,
      show 5 ≤ hand.shape.1 from hS]

/-- C4 (counterexample to the claim as stated): `handTen` holds five
hearts and 10 ≥ 8 points, yet on the single-call ledger `["1NT"]` the
advice is the lone Pass suggestion of the overcall table — no 2D
transfer is included. -/
theorem c4_counterexample :
    8 ≤ handTen.hcp ∧ 5 ≤ BridgeFull.suit_len handTen.cards 'H' ∧
    BridgeFull.advise_your_bid handTen ["1NT"] =
      some [⟨"Pass", "No NT penalty double available by rule."⟩] ∧
    ([⟨"Pass", "No NT penalty double available by rule."⟩] :
      List BridgeFull.Suggestion).any (fun s => s.bid = "2D") = false :=
  ⟨by decide, by decide, rfl, by decide⟩

/-- C4 witness: the amended theorem applied to the concrete 5-5 major
hand on the ledger `["Pass", "1NT"]`. -/
theorem c4_witness :
    BridgeFull.advise_your_bid handMajors ["Pass", "1NT"] = some sugsMajors ∧
    sugsMajors.any (fun s => s.bid = "2D") = true ∧
    sugsMajors.any (fun s => s.bid = "2H") = true :=
  ⟨rfl,
    (c4_transfer_on_even_ledger handMajors sugsMajors rfl (by decide)).1 (by decide),
    (c4_transfer_on_even_ledger handMajors sugsMajors rfl (by decide)).2 (by decide)⟩

/-- C5 (amended): `major_fit_agreed` returns a suit exactly when some
single call of `2/3/4` of a major appears among the non-Pass/X/XX calls
— one such call suffices, two distinct levels are not required (hearts
are examined before spades) — and the RKCB ace-asking reply in
`advise_your_bid` is gated on precisely this condition: when the last
call is `4NT` and a major fit is flagged, the advice is exactly the
auto-reply, and on the fit-less ledger `["Pass","1NT","Pass","4NT"]` no
ace-asking reply is produced. -/
theorem c5_major_fit_single_bid_gate :
    (∀ l : List String,
      (BridgeFull.major_fit_agreed l).isSome = true ↔
        l.any (fun b => b = "2H" ∨ b = "3H" ∨ b = "4H" ∨
          b = "2S" ∨ b = "3S" ∨ b = "4S") = true) ∧
    (∀ (hand : BridgeFull.Hand) (auction : List String),
      auction.getLast? = some "4NT" →
      (BridgeFull.major_fit_agreed auction).isSome = true →
      BridgeFull.advise_your_bid hand auction =
        some [⟨BridgeFull.auto_reply_rkcb hand.cards,
          BridgeFull.rkcb_reason (BridgeFull.auto_reply_rkcb hand.cards)⟩]) ∧
    BridgeFull.advise_your_bid handTen ["Pass", "1NT", "Pass", "4NT"] =
      some [⟨"Pass", "No rule matched."⟩] := by
  refine ⟨?_, fun hand auction h1 h2 => advise_rkcb_branch hand auction h1 h2, rfl⟩
  intro l
  have hchain : ∀ c1 c2 : Bool,
      (if c1 = true then some 'H' else if c2 = true then some 'S'
        else (none : Option Char)).isSome = (c1 || c2) := by
    intro c1 c2
    cases c1 <;> cases c2 <;> simp
  simp only [BridgeFull.major_fit_agreed]
  rw [hchain]
  simp only [Bool.or_eq_true, List.any_eq_true, List.mem_filter, Bool.and_eq_true,
    decide_eq_true_eq]
  constructor
  · rintro (⟨b, ⟨hb, _⟩, hp⟩ | ⟨b, ⟨hb, _⟩, hp⟩) <;>
      exact ⟨b, hb, by tauto⟩
  · rintro ⟨b, hb, hp⟩
    rcases hp with rfl | rfl | rfl | rfl | rfl | rfl
    · exact Or.inl ⟨"2H", ⟨hb, by decide⟩, by decide⟩
    · exact Or.inl ⟨"3H", ⟨hb, by decide⟩, by decide⟩
    · exact Or.inl ⟨"4H", ⟨hb, by decide⟩, by decide⟩
    · exact Or.inr ⟨"2S", ⟨hb, by decide⟩, by decide⟩
    · exact Or.inr ⟨"3S", ⟨hb, by decide⟩, by decide⟩
    · exact Or.inr ⟨"4S", ⟨hb, by decide⟩, by decide⟩

/-- C5 (counterexample to the claim as stated): on the ledger `["2H"]`
hearts have been bid at a single level only, so the spec reading of
"two distinct levels" yields no agreed suit, but `major_fit_agreed`
already returns hearts. -/
theorem c5_counterexample :
    BridgeFull.major_fit_agreed ["2H"] = some 'H' ∧
    BridgeFull.spec_two_level_major ["2H"] = none := by
  exact ⟨rfl, by decide⟩

/-- C5 witness: the gating part of the amended theorem applied to the
concrete ledger `["2H", "4NT"]` and the two-ace hand. -/
theorem c5_witness :
    BridgeFull.advise_your_bid handTen ["2H", "4NT"] =
      some [⟨BridgeFull.auto_reply_rkcb handTen.cards,
        BridgeFull.rkcb_reason (BridgeFull.auto_reply_rkcb handTen.cards)⟩] :=
  c5_major_fit_single_bid_gate.2.1 handTen ["2H", "4NT"] rfl (by decide)

/-- C6 (amended): `partner_range_guess` is a lookup keyed on the last
call of the ledger, not on the last non-Pass call: whatever precedes,
a final 1NT gives (15,17), 2NT gives (20,21), 3NT gives (25,27), a
one-level suit call gives (12,21), 2C gives (22,40), and any other
final call — including Pass and Double — gives the widest band (0,20);
the empty ledger gives (0,0). -/
theorem c6_partner_range_is_last_call_lookup (l : List String) :
    BridgeFull.partner_range_guess (l ++ ["1NT"]) = (15, 17) ∧
    BridgeFull.partner_range_guess (l ++ ["2NT"]) = (20, 21) ∧
    BridgeFull.partner_range_guess (l ++ ["3NT"]) = (25, 27) ∧
    BridgeFull.partner_range_guess (l ++ ["1S"]) = (12, 21) ∧
    BridgeFull.partner_range_guess (l ++ ["1H"]) = (12, 21) ∧
    BridgeFull.partner_range_guess (l ++ ["1D"]) = (12, 21) ∧
    BridgeFull.partner_range_guess (l ++ ["1C"]) = (12, 21) ∧
    BridgeFull.partner_range_guess (l ++ ["2C"]) = (22, 40) ∧
    BridgeFull.partner_range_guess (l ++ ["Pass"]) = (0, 20) ∧
    BridgeFull.partner_range_guess (l ++ ["X"]) = (0, 20) ∧
    BridgeFull.partner_range_guess [] = (0, 0) := by
  refine ⟨?_, ?_, ?_, ?_, ?_, ?_, ?_, ?_, ?_, ?_, rfl⟩ <;>
    simp [BridgeFull.partner_range_guess, List.getLast?_concat]

/-- C6 (counterexample to the claim as stated): the ledger
`["1NT", "Pass"]` contains the non-Pass call 1NT, whose table entry is
(15,17), yet the function keys on the final Pass and returns (0,20). -/
theorem c6_counterexample :
    BridgeFull.partner_range_guess ["1NT", "Pass"] = (0, 20) ∧
    ¬ BridgeFull.partner_range_guess ["1NT", "Pass"] = (15, 17) :=
  ⟨rfl, by decide⟩

/-- C7: the ace-asking replies are deterministic table lookups — RKCB
maps 0/1/2/3 aces to 5C/5D/5H/5S and 4 aces back to 5C; Gerber maps
0/1/2/3 aces to 4D/4H/4S/4NT and 4 aces back to 4D — and
`advise_your_bid` returns exactly the single looked-up reply when the
last call is 4NT with a major fit flagged, or 4C in a no-trump
context. -/
theorem c7_ace_asking_replies :
    (∀ cards : List BridgeFull.Card,
      (BridgeFull.count_aces cards = 0 → BridgeFull.auto_reply_rkcb cards = "5C") ∧
      (BridgeFull.count_aces cards = 1 → BridgeFull.auto_reply_rkcb cards = "5D") ∧
      (BridgeFull.count_aces cards = 2 → BridgeFull.auto_reply_rkcb cards = "5H") ∧
      (BridgeFull.count_aces cards = 3 → BridgeFull.auto_reply_rkcb cards = "5S") ∧
      (BridgeFull.count_aces cards = 4 → BridgeFull.auto_reply_rkcb cards = "5C") ∧
      (BridgeFull.count_aces cards = 0 → BridgeFull.auto_reply_gerber cards = "4D") ∧
      (BridgeFull.count_aces cards = 1 → BridgeFull.auto_reply_gerber cards = "4H") ∧
      (BridgeFull.count_aces cards = 2 → BridgeFull.auto_reply_gerber cards = "4S") ∧
      (BridgeFull.count_aces cards = 3 → BridgeFull.auto_reply_gerber cards = "4NT") ∧
      (BridgeFull.count_aces cards = 4 → BridgeFull.auto_reply_gerber cards = "4D")) ∧
    (∀ (hand : BridgeFull.Hand) (auction : List String),
      auction.getLast? = some "4NT" →
      (BridgeFull.major_fit_agreed auction).isSome = true →
      BridgeFull.advise_your_bid hand auction =
        some [⟨BridgeFull.auto_reply_rkcb hand.cards,
          BridgeFull.rkcb_reason (BridgeFull.auto_reply_rkcb hand.cards)⟩]) ∧
    (∀ (hand : BridgeFull.Hand) (auction : List String),
      auction.getLast? = some "4C" →
      BridgeFull.nt_context_exists auction = true →
      BridgeFull.advise_your_bid hand auction =
        some [⟨BridgeFull.auto_reply_gerber hand.cards,
          BridgeFull.gerber_reason (BridgeFull.auto_reply_gerber hand.cards)⟩]) := by
  refine ⟨?_, advise_rkcb_branch, advise_gerber_branch⟩
  intro cards
  refine ⟨?_, ?_, ?_, ?_, ?_, ?_, ?_, ?_, ?_, ?_⟩ <;>
    · intro h
      simp [BridgeFull.auto_reply_rkcb, BridgeFull.auto_reply_gerber, h]

/-- C7 witness: the two-ace hand replies 5H to RKCB and 4S to Gerber on
concrete asking ledgers, and four aces wrap to the zero-ace slots. -/
theorem c7_witness :
    BridgeFull.advise_your_bid handTen ["2H", "4NT"] =
      some [⟨BridgeFull.auto_reply_rkcb handTen.cards,
        BridgeFull.rkcb_reason (BridgeFull.auto_reply_rkcb handTen.cards)⟩] ∧
    BridgeFull.advise_your_bid handTen ["1NT", "4C"] =
      some [⟨BridgeFull.auto_reply_gerber handTen.cards,
        BridgeFull.gerber_reason (BridgeFull.auto_reply_gerber handTen.cards)⟩] ∧
    BridgeFull.auto_reply_rkcb handTen.cards = "5H" ∧
    BridgeFull.auto_reply_rkcb fourAces = "5C" ∧
    BridgeFull.auto_reply_gerber fourAces = "4D" :=
  ⟨c7_ace_asking_replies.2.1 handTen ["2H", "4NT"] rfl (by decide),
   c7_ace_asking_replies.2.2 handTen ["1NT", "4C"] rfl (by decide),
   (c7_ace_asking_replies.1 handTen.cards).2.2.1 (by decide),
   (c7_ace_asking_replies.1 fourAces).2.2.2.2.1 (by decide),
   (c7_ace_asking_replies.1 fourAces).2.2.2.2.2.2.2.2.2 (by decide)⟩

/-- C8: `advise_your_bid` does not always return a non-empty suggestion
list: on the ledger `["3NT"]` the overcall path evaluates the
dictionary lookup `{"S":S,"H":Ht,"D":D,"C":C}[opener_suit]` at the
character `T`, raising a KeyError (modelled as `none`) instead of
falling back to a Pass suggestion. -/
theorem c8_advise_raises_on_3nt_overcall :
    BridgeFull.overcall_suggestions "3NT" handTen = none ∧
    BridgeFull.advise_your_bid handTen ["3NT"] = none :=
  ⟨rfl, rfl⟩

lemma isOkE_parse_ranks (suit : Char) (g : List Char) :
    BridgeFull.isOkE (BridgeFull.parse_ranks suit g) = true ↔
      ∀ c ∈ g, c ∈ BridgeFull.RANKS := by
  induction g with
  | nil => simp [BridgeFull.parse_ranks, BridgeFull.isOkE]
  | cons r rs ih =>
    by_cases hr : r ∈ BridgeFull.RANKS
    · have hstep : BridgeFull.isOkE (BridgeFull.parse_ranks suit (r :: rs)) =
          BridgeFull.isOkE (BridgeFull.parse_ranks suit rs) := by
        simp only [BridgeFull.parse_ranks, if_pos hr]
        cases h' : BridgeFull.parse_ranks suit rs <;> simp [h', BridgeFull.isOkE]
      rw [hstep, ih]
      simp [List.forall_mem_cons, hr]
    · simp only [BridgeFull.parse_ranks, if_neg hr]
      simp [BridgeFull.isOkE, List.forall_mem_cons, hr]

lemma isOkE_parse_groups (ps : List (List Char × Char)) :
    BridgeFull.isOkE (BridgeFull.parse_groups ps) = true ↔
      ∀ p ∈ ps, ∀ c ∈ p.1, c ∈ BridgeFull.RANKS := by
  induction ps with
  | nil => simp [BridgeFull.parse_groups, BridgeFull.isOkE]
  | cons p rest ih =>
    obtain ⟨g, su⟩ := p
    have hstep : BridgeFull.isOkE (BridgeFull.parse_groups ((g, su) :: rest)) =
        (BridgeFull.isOkE (BridgeFull.parse_ranks su g) &&
          BridgeFull.isOkE (BridgeFull.parse_groups rest)) := by
      simp only [BridgeFull.parse_groups]
      cases h1 : BridgeFull.parse_ranks su g <;>
        cases h2 : BridgeFull.parse_groups rest <;> simp [h1, h2, BridgeFull.isOkE]
    rw [hstep]
    simp [Bool.and_eq_true, isOkE_parse_ranks, ih, List.forall_mem_cons]

/-- C9: for inputs in the dot-grouped notation, parsing fails only when
the number of dot-separated groups is not 4 or a rank character is
invalid — in particular it accepts, with no error, the 5-card input
`AK.A.A.A` and the duplicate-card input `AA.A.A.A`, producing card lists
that violate the 13-distinct-cards invariant. -/
theorem c9_grouped_parse_checks_only_groups_and_ranks :
    (∀ s : String, '.' ∈ BridgeFull.normalize s.toList →
      ¬ ' ' ∈ BridgeFull.normalize s.toList →
      (BridgeFull.isOkE (BridgeFull.parse_hand_string s) = true ↔
        ((BridgeFull.pySplit '.' (BridgeFull.normalize s.toList)).length = 4 ∧
          ∀ g ∈ BridgeFull.pySplit '.' (BridgeFull.normalize s.toList),
            ∀ c ∈ g, c ∈ BridgeFull.RANKS))) ∧
    BridgeFull.parse_hand_string "AK.A.A.A" =
      .ok [('A', 'S'), ('K', 'S'), ('A', 'H'), ('A', 'D'), ('A', 'C')] ∧
    ([('A', 'S'), ('K', 'S'), ('A', 'H'), ('A', 'D'), ('A', 'C')] :
      List BridgeFull.Card).length ≠ 13 ∧
    BridgeFull.parse_hand_string "AA.A.A.A" =
      .ok [('A', 'S'), ('A', 'S'), ('A', 'H'), ('A', 'D'), ('A', 'C')] ∧
    ([('A', 'S'), ('A', 'S'), ('A', 'H'), ('A', 'D'), ('A', 'C')] :
      List BridgeFull.Card).count ('A', 'S') = 2 := by
  refine ⟨?_, rfl, by decide, rfl, by decide⟩
  intro s h1 h2
  simp only [String.toList] at h1 h2 ⊢
  simp only [BridgeFull.parse_hand_string, String.toList]
  rw [if_pos ⟨h1, h2⟩]
  by_cases h4 : (BridgeFull.pySplit '.' (BridgeFull.normalize s.data)).length = 4
  · rw [if_neg (by simp [h4])]
    rw [isOkE_parse_groups]
    have hlen : (BridgeFull.pySplit '.' (BridgeFull.normalize s.data)).length ≤
        (['S', 'H', 'D', 'C'] : List Char).length := by
      rw [h4]
      decide
    have hmap := List.map_fst_zip (BridgeFull.pySplit '.' (BridgeFull.normalize s.data))
      ['S', 'H', 'D', 'C'] hlen
    constructor
    · intro hall
      refine ⟨h4, ?_⟩
      intro g hg c hc
      rw [← hmap] at hg
      obtain ⟨p, hp, hpe⟩ := List.mem_map.mp hg
      rw [← hpe] at hc
      exact hall p hp c hc
    · rintro ⟨_, hall⟩
      intro p hp c hc
      have hmem : p.1 ∈ List.map Prod.fst ((BridgeFull.pySplit '.'
          (BridgeFull.normalize s.data)).zip ['S', 'H', 'D', 'C']) :=
        List.mem_map.mpr ⟨p, hp, rfl⟩
      rw [hmap] at hmem
      exact hall p.1 hmem c hc
  · rw [if_pos h4]
    simp only [BridgeFull.isOkE, Bool.false_eq_true, false_iff]
    exact fun hc => h4 hc.1

/-- C9 witness: the characterization applied to the concrete grouped
input `AK.A.A.A`, whose parse succeeds. -/
theorem c9_witness :
    BridgeFull.isOkE (BridgeFull.parse_hand_string "AK.A.A.A") = true :=
  (c9_grouped_parse_checks_only_groups_and_ranks.1 "AK.A.A.A"
    (by decide) (by decide)).mpr (by decide)
